import Mathlib

/-!
Verification of the `ffrd-model-developer` tiled-acquisition pipelines
(`src/spatially_varied_curve_numbers.py` and `src/spatially_varied_mannings_n.py`)
against their natural-language specification.

The numeric code operates on Python floats; here it is embedded over `ℚ`
(exact rational arithmetic), with Python's `round(x, 8)` modelled exactly as
round-half-to-even on rationals (`pyRound`/`round8`).  Network fetches, the
filesystem and the AOI geometry are modelled as explicit oracles; every other
step is translated statement-by-statement from the Python source.
-/

/-- Python's `round` to the nearest integer, ties to even (banker's rounding),
on exact rationals. -/
def pyRound (q : ℚ) : ℤ :=
  let f := ⌊q⌋
  let r := q - f
  if r < 1/2 then f
  else if 1/2 < r then f + 1
  else if f % 2 = 0 then f else f + 1

/-- Python's `round(q, 8)` on exact rationals. -/
def round8 (q : ℚ) : ℚ := (pyRound (q * 10^8) : ℚ) / 10^8

/-- An axis-aligned extent `(min_x, max_x, min_y, max_y)`, the tuple layout both
pipelines use. -/
structure Extent where
  min_x : ℚ
  max_x : ℚ
  min_y : ℚ
  max_y : ℚ
deriving DecidableEq

/-- Source `num_rows = math.ceil((max_y - min_y) / subextent_size)` from `split_extent`. -/
def num_rows (size : ℚ) (ext : Extent) : ℕ := (⌈(ext.max_y - ext.min_y) / size⌉).toNat

/-- Source `num_cols = math.ceil((max_x - min_x) / subextent_size)` from `split_extent`. -/
def num_cols (size : ℚ) (ext : Extent) : ℕ := (⌈(ext.max_x - ext.min_x) / size⌉).toNat

/-- Source `step_x = (max_x - min_x) / num_cols` from `split_extent` (not rounded). -/
def step_x (size : ℚ) (ext : Extent) : ℚ := (ext.max_x - ext.min_x) / (num_cols size ext : ℚ)

/-- Source `step_y = round((max_y - min_y) / num_rows, 8)` from `split_extent`
(rounded to 8 decimal places, unlike `step_x`). -/
def step_y (size : ℚ) (ext : Extent) : ℚ :=
  round8 ((ext.max_y - ext.min_y) / (num_rows size ext : ℚ))

/-- The pre-margin x partition point `min_x + col * step_x` of `split_extent`. -/
def colLow (size : ℚ) (ext : Extent) (col : ℕ) : ℚ := ext.min_x + (col : ℚ) * step_x size ext

/-- The pre-margin y partition point `min_y + row * step_y` of `split_extent`. -/
def rowLow (size : ℚ) (ext : Extent) (row : ℕ) : ℚ := ext.min_y + (row : ℚ) * step_y size ext

/-- One candidate subextent of `split_extent`: partition cell `(row, col)` with the
overlap margin added on all four sides and each bound rounded to 8 decimals, exactly
as in the source (`round((min_x + col * step_x) - tile_margin, 8)` and so on). -/
def subextentAt (size margin : ℚ) (ext : Extent) (row col : ℕ) : Extent :=
  { min_x := round8 (colLow size ext col - margin)
    max_x := round8 (colLow size ext (col + 1) + margin)
    min_y := round8 (rowLow size ext row - margin)
    max_y := round8 (rowLow size ext (row + 1) + margin) }

/-- Function `split_extent(extent, gdf)`: both pipeline modules contain the identical function,
differing only in the constants `subextent_size` and `tile_margin`, so those are
parameters here.  `intersects` is the oracle for `gdf.intersects(subextent_box).any()`. -/
def split_extent (size margin : ℚ) (ext : Extent) (intersects : Extent → Bool) : List Extent :=
  (List.range (num_rows size ext)).flatMap (fun row =>
    (List.range (num_cols size ext)).filterMap (fun col =>
      let t := subextentAt size margin ext row col
      if intersects t then some t else none))

/-- The curve-number instance: `subextent_size = 0.25` degrees, `tile_margin = 0.0015`. -/
def split_extent_cn (ext : Extent) (intersects : Extent → Bool) : List Extent :=
  split_extent (1/4) (15/10000) ext intersects

/-- The NLCD instance: `subextent_size = 100000` meters, `tile_margin = 120`. -/
def split_extent_nlcd (ext : Extent) (intersects : Extent → Bool) : List Extent :=
  split_extent 100000 120 ext intersects

/-- A fetched vector dataset: a list of features, each carrying the
`(geometry, mukey)` pair the pipeline later deduplicates on. -/
abbrev Dataset := List (ℕ × ℕ)

/-- Function `create_url` from `spatially_varied_curve_numbers.py`: the WFS request URL
templated with the bounding box (rationals rendered with `toString` in place of
Python float formatting; no claim depends on the digits). -/
def create_url (min_x min_y max_x max_y : ℚ) : String :=
  "https://sdmdataaccess.nrcs.usda.gov/Spatial/SDMWGS84Geographic.wfs?SERVICE=WFS&VERSION=1.0.0&REQUEST=GetFeature&TYPENAME=MapunitPoly&BBOX="
    ++ toString min_x ++ "," ++ toString min_y ++ "," ++ toString max_x ++ "," ++ toString max_y
    ++ "&SRSNAME=EPSG:4326&OUTPUTFORMAT=GML3"

/-- Function `get_data(wfs_url)`: `attempts` gives the outcome of each `gpd.read_file` try in
the `for attempt in range(3)` loop (`none` = exception raised, `some d` = the dataset
read).  The loop has no `break`: a later try overwrites `gdf_ssurgo`, an exception
leaves the previous binding in place (`except: continue`), and after the loop the
`"gdf_ssurgo" in locals() and not gdf_ssurgo.empty` check decides success. -/
def get_data (attempts : List (Option Dataset)) (url : String) : Option Dataset × Option String :=
  let bound : Option Dataset :=
    attempts.foldl (fun acc a => match a with | some d => some d | none => acc) none
  match bound with
  | some d => if d.isEmpty then (none, some url) else (some d, none)
  | none => (none, some url)

/-- The latest non-raising read among the tries: what `gdf_ssurgo` holds after the
retry loop of `get_data`. -/
def lastSuccess (attempts : List (Option Dataset)) : Option Dataset :=
  (attempts.filterMap id).getLast?

/-- The buffering of the AOI bounds in `acquire_ssurgo_data` (lines 259-262).  Note the
source mutates `min_x`/`min_y` first, so the `max` updates use the already-buffered
minima. -/
def bufferExtent (min_x0 min_y0 max_x0 max_y0 : ℚ) : Extent :=
  let min_x := min_x0 - |max_x0 - min_x0| * (5/100)
  let min_y := min_y0 - |max_y0 - min_y0| * (5/100)
  let max_x := max_x0 + |max_x0 - min_x| * (5/100)
  let max_y := max_y0 + |max_y0 - min_y| * (5/100)
  { min_x := min_x, max_x := max_x, min_y := min_y, max_y := max_y }

/-- Source `merged_gdf.drop_duplicates(subset=["geometry", "mukey"])`: pandas keeps the first
occurrence of each `(geometry, mukey)` pair. -/
def drop_duplicates : List (ℕ × ℕ) → List (ℕ × ℕ)
  | [] => []
  | x :: xs => x :: drop_duplicates (xs.filter (fun y => decide (y ≠ x)))
termination_by l => l.length
decreasing_by
  simp only [List.length_cons]
  exact Nat.lt_succ_of_le (List.length_filter_le _ _)

/-- Observable actions of the vector pipeline, in program order. -/
inductive VEvent where
  | tilerInvoked
  | fetch (url : String)
  | retryFetch (url : String)
deriving DecidableEq

/-- Fatal errors of the vector pipeline: `mp.Pool(0)`'s `ValueError` on hosts with
fewer than 4 cores, and the explicit `raise Exception` when no data was retrieved. -/
inductive VErr where
  | poolError
  | noData
deriving DecidableEq

/-- Network oracle for the vector pipeline: for each URL, the three per-try outcomes
of the parallel pass and of the serial retry pass. -/
structure VectorWorld where
  attempts1 : String → List (Option Dataset)
  attempts2 : String → List (Option Dataset)

/-- Is this event a network fetch? -/
def isFetchEvent : VEvent → Bool
  | VEvent.fetch _ => true
  | VEvent.retryFetch _ => true
  | _ => false

/-- The tile URLs of `acquire_ssurgo_data` (lines 253-280): buffer the raw WGS84 AOI
bounds `(min_x, min_y, max_x, max_y)`, split the buffered extent (`split_extent` is
called unconditionally in this module - there is no small-area branch), and build one
WFS URL per surviving tile. -/
def ssurgoUrls (aoi : ℚ × ℚ × ℚ × ℚ) (intersects : Extent → Bool) : List String :=
  (split_extent_cn (bufferExtent aoi.1 aoi.2.1 aoi.2.2.1 aoi.2.2.2) intersects).map
    (fun e => create_url e.min_x e.min_y e.max_x e.max_y)

/-- The URLs whose `get_data` call in the parallel pass reported failure
(`failed_url_list`, line 291). -/
def failedUrls (w : VectorWorld) (urls : List String) : List String :=
  (urls.map (fun u => get_data (w.attempts1 u) u)).filterMap (fun r => r.2)

/-- The `gdf_ssurgo` list after the parallel pass and the conditional serial retry
(`get_failed_data`, lines 289-300): the successful datasets of the first pass,
extended - only when something failed - by the retry pass successes. -/
def fetchedDatasets (w : VectorWorld) (urls : List String) : List Dataset :=
  let results := urls.map (fun u => get_data (w.attempts1 u) u)
  let succ1 := results.filterMap (fun r => r.1)
  let failed := results.filterMap (fun r => r.2)
  if failed.isEmpty then succ1
  else succ1 ++ (failed.map (fun u => get_data (w.attempts2 u) u)).filterMap (fun r => r.1)

/-- Function `acquire_ssurgo_data(aoi_path, output_directory)`, with the AOI reduced to its raw
WGS84 bounds `(min_x, min_y, max_x, max_y)`, `intersects` the AOI-intersection oracle
used by `split_extent`, `inAOI` the oracle for `gpd.clip`, and `numCores` the value of
`mp.cpu_count()`.  The trace records the tiler invocation and every fetch; the result
is the feature list written to `ssurgo_data.gpkg`, or the fatal error.  Mirrors the
source order: read/buffer bounds, `split_extent`, build URLs,
`mp.Pool(int(num_cores / 4))` (raises when the size is 0), parallel `get_data` pass,
serial retry of failures, the no-data-at-all `raise`, then concat /
`drop_duplicates` / clip. -/
def acquire_ssurgo_data (numCores : ℕ) (aoi : ℚ × ℚ × ℚ × ℚ)
    (intersects : Extent → Bool) (inAOI : ℕ × ℕ → Bool) (w : VectorWorld) :
    List VEvent × Except VErr (List (ℕ × ℕ)) :=
  let url_list := ssurgoUrls aoi intersects
  if numCores / 4 = 0 then
    ([VEvent.tilerInvoked], Except.error VErr.poolError)
  else
    let failed_url_list := failedUrls w url_list
    let retryEvents := if failed_url_list.isEmpty then [] else failed_url_list.map VEvent.retryFetch
    let gdf_ssurgo := fetchedDatasets w url_list
    let events := VEvent.tilerInvoked :: url_list.map VEvent.fetch ++ retryEvents
    if gdf_ssurgo.all (fun d => d.isEmpty) then
      (events, Except.error VErr.noData)
    else
      (events, Except.ok ((drop_duplicates gdf_ssurgo.flatten).filter inAOI))

/-- Observable actions of the raster pipeline, in program order. -/
inductive REvent where
  | validate
  | tilerInvoked
  | fetchWhole
  | fetchTile (i : ℕ)
  | retryTile (i : ℕ)
deriving DecidableEq

/-- Fatal errors of the raster pipeline: the `ValueError` from `check_fields_in_csv`,
and the `RasterioIOError` raised by `rasterio.open` inside `convert_to_mannings` when
the tile file was never written because its download failed. -/
inductive RErr where
  | configError (field : String)
  | rasterReadError (i : ℕ)
  | rasterReadErrorWhole
deriving DecidableEq

/-- Network oracle for the raster pipeline: whether `get_img` succeeds for tile `i`
in the main pass (`pass1`) and in the retry pass (`pass2`).  On success the GeoTIFF
file exists afterwards; on failure `get_img` returns `"fail"` without writing it. -/
structure RasterWorld where
  pass1 : ℕ → Bool
  pass2 : ℕ → Bool

/-- Required columns of the Manning's n lookup CSV, in source order. -/
def required_fields : List String := ["value", "nlcd_name", "mannings_n"]

/-- The `for field in required_fields` loop of `check_fields_in_csv`: the first
required field missing from the header raises `ValueError`. -/
def checkFieldsAux (fieldnames : List String) : List String → Except String Unit
  | [] => Except.ok ()
  | f :: rest => if f ∈ fieldnames then checkFieldsAux fieldnames rest else Except.error f

/-- Function `check_fields_in_csv(file_path)` with the CSV reduced to its header row. -/
def check_fields_in_csv (fieldnames : List String) : Except String Unit :=
  checkFieldsAux fieldnames required_fields

/-- The dictionary `pd.Series(df.mannings_n.values, index=df.value).to_dict()` and its
`.get` lookup: later duplicate keys overwrite earlier ones, a missing key gives
`None`. -/
def dictLookup (lookup : List (ℕ × ℚ)) (code : ℕ) : Option ℚ :=
  (lookup.reverse.find? (fun p => p.1 == code)).map (fun p => p.2)

/-- The cell remap of `convert_to_mannings`: `np.vectorize(value_to_manningsn.get)`
applied to the land-cover grid.  A `None` (missing code) survives the
`astype("float32")` cast as NaN, modelled here as `none`. -/
def convert_to_mannings_cells (lookup : List (ℕ × ℚ)) (grid : List (List ℕ)) :
    List (List (Option ℚ)) :=
  grid.map (fun rowCells => rowCells.map (dictLookup lookup))

/-- The tile loop of `get_nlcd_and_convert` (lines 92-109): for each tile index,
`get_img` is called (one fetch event) and then - before the `result == "fail"` check -
`convert_to_mannings` opens the tile file.  When the download failed that file does
not exist and `rasterio.open` raises, aborting the run.  Returns the accumulated
`tile_paths` and `failed_img` lists on normal completion. -/
def rasterLoop1 (w : RasterWorld) : List ℕ → List REvent × Except RErr (List ℕ × List ℕ)
  | [] => ([], Except.ok ([], []))
  | i :: rest =>
    if w.pass1 i then
      let res := rasterLoop1 w rest
      (REvent.fetchTile i :: res.1, res.2.map (fun pf => (i :: pf.1, pf.2)))
    else
      ([REvent.fetchTile i], Except.error (RErr.rasterReadError i))

/-- The retry loop of `get_nlcd_and_convert` (lines 112-129), with the same
convert-before-check structure as the main loop. -/
def rasterRetryLoop (w : RasterWorld) : List ℕ → List REvent × Except RErr (List ℕ)
  | [] => ([], Except.ok [])
  | i :: rest =>
    if w.pass2 i then
      let res := rasterRetryLoop w rest
      (REvent.retryTile i :: res.1, res.2.map (fun ps => i :: ps))
    else
      ([REvent.retryTile i], Except.error (RErr.rasterReadError i))

/-- The body of `get_nlcd_and_convert` after CSV validation: compute the WGS84 area;
if it is at most 9 square degrees fetch the whole Albers extent as one image (the
`get_img` result is not checked; a failed download crashes the subsequent
`convert_to_mannings`), otherwise tile via `split_extent`, run the main pass, the
retry pass over `failed_img`, and mosaic the collected tile paths in order. -/
def rasterBody (pre : List REvent) (extWGS extAlbers : Extent)
    (intersects : Extent → Bool) (w : RasterWorld) : List REvent × Except RErr (List ℕ) :=
  let area := |extWGS.max_x - extWGS.min_x| * |extWGS.max_y - extWGS.min_y|
  if area ≤ 9 then
    if w.pass1 0 then
      (pre ++ [REvent.fetchWhole], Except.ok [0])
    else
      (pre ++ [REvent.fetchWhole], Except.error RErr.rasterReadErrorWhole)
  else
    let tiles := split_extent_nlcd extAlbers intersects
    let idxs := List.range tiles.length
    let res1 := rasterLoop1 w idxs
    match res1.2 with
    | Except.error e => (pre ++ REvent.tilerInvoked :: res1.1, Except.error e)
    | Except.ok pf =>
      if pf.2.isEmpty then
        (pre ++ REvent.tilerInvoked :: res1.1, Except.ok pf.1)
      else
        let res2 := rasterRetryLoop w pf.2
        match res2.2 with
        | Except.error e =>
          (pre ++ REvent.tilerInvoked :: res1.1 ++ res2.1, Except.error e)
        | Except.ok ps2 =>
          (pre ++ REvent.tilerInvoked :: res1.1 ++ res2.1, Except.ok (pf.1 ++ ps2))

/-- Function `get_nlcd_and_convert(aoi_path, output_directory, nlcd_classifications_path)`:
`csvFields` is the header of the user-supplied lookup CSV (`none` = use the built-in
default), `extWGS`/`extAlbers` the dissolved AOI bounds in EPSG:4326 / EPSG:5070, and
the result the ordered list of tile images mosaicked into the outputs.  A user CSV is
validated first, before any network activity. -/
def get_nlcd_and_convert (csvFields : Option (List String)) (extWGS extAlbers : Extent)
    (intersects : Extent → Bool) (w : RasterWorld) : List REvent × Except RErr (List ℕ) :=
  match csvFields with
  | some fs =>
    match check_fields_in_csv fs with
    | Except.error f => ([REvent.validate], Except.error (RErr.configError f))
    | Except.ok _ => rasterBody [REvent.validate] extWGS extAlbers intersects w
  | none => rasterBody [] extWGS extAlbers intersects w

/-- One row of the SSURGO `component` table: `(mukey, comppct_r, hydgrp)`. -/
structure CompRow where
  mukey : String
  comppct_r : ℚ
  hydgrp : String
deriving DecidableEq

/-- The lexicographic order pandas sorts grouped keys by in
`df.groupby(["hydgrp", "mukey"])`. -/
def keyLE (a b : String × String) : Prop := a.1 < b.1 ∨ (a.1 = b.1 ∧ a.2 ≤ b.2)

instance : DecidableRel keyLE := fun a b => by
  unfold keyLE; infer_instance

instance : IsTotal (String × String) keyLE := ⟨by
  intro a b
  rcases lt_trichotomy a.1 b.1 with h | h | h
  · exact Or.inl (Or.inl h)
  · rcases le_total a.2 b.2 with h2 | h2
    · exact Or.inl (Or.inr ⟨h, h2⟩)
    · exact Or.inr (Or.inr ⟨h.symm, h2⟩)
  · exact Or.inr (Or.inl h)⟩

instance : IsTrans (String × String) keyLE := ⟨by
  intro a b c hab hbc
  rcases hab with h1 | ⟨e1, l1⟩
  · rcases hbc with h2 | ⟨e2, l2⟩
    · exact Or.inl (h1.trans h2)
    · exact Or.inl (e2 ▸ h1)
  · rcases hbc with h2 | ⟨e2, l2⟩
    · exact Or.inl (e1 ▸ h2)
    · exact Or.inr ⟨e1.trans e2, l1.trans l2⟩⟩

/-- The distinct `(hydgrp, mukey)` keys occurring in the component table. -/
def uniqueKeys (rows : List CompRow) : List (String × String) :=
  (rows.map (fun r => (r.hydgrp, r.mukey))).dedup

/-- Source `df.groupby(["hydgrp", "mukey"])["comppct_r"].sum()` for one key. -/
def sumPct (rows : List CompRow) (k : String × String) : ℚ :=
  ((rows.filter (fun r => decide (r.hydgrp = k.1 ∧ r.mukey = k.2))).map
    (fun r => r.comppct_r)).sum

/-- Table `grouped_data`: the summed percentages, one row per `(hydgrp, mukey)` key, in the
ascending key order pandas' `groupby(..., sort=True)` produces. -/
def grouped_data (rows : List CompRow) : List (String × String × ℚ) :=
  (List.insertionSort keyLE (uniqueKeys rows)).map (fun k => (k.1, k.2, sumPct rows k))

/-- One step of pandas `idxmax`: keep the current row unless a strictly larger value
appears, so the first occurrence of the maximum wins. -/
def firstMaxStep (acc : Option (String × ℚ)) (x : String × ℚ) : Option (String × ℚ) :=
  match acc with
  | none => some x
  | some y => if y.2 < x.2 then some x else some y

/-- Source `grouped_data.groupby("mukey")["pct"].idxmax()` restricted to one mukey: the first
row, in dataframe order, achieving the maximum summed percentage. -/
def idxmaxFirst (l : List (String × ℚ)) : Option (String × ℚ) := l.foldl firstMaxStep none

/-- The `(hydgrp, pct)` rows of `grouped_data` for one mukey, in dataframe order. -/
def groupList (rows : List CompRow) (m : String) : List (String × ℚ) :=
  ((grouped_data rows).filter (fun t => decide (t.2.1 = m))).map (fun t => (t.1, t.2.2))

/-- The hydrologic group `get_soils_hydro_group` assigns to mukey `m`. -/
def hydroGroupFor (rows : List CompRow) (m : String) : Option String :=
  (idxmaxFirst (groupList rows m)).map (fun p => p.1)

/-- Source `soils_gdf["Soil_Class"].str.replace("/", "-")` on one label.  For the
single-character pattern and replacement used here, Python's substring replace is a
character-wise map. -/
def normalizeSoilClass (s : String) : String :=
  String.mk (s.data.map (fun c => if c = '/' then '-' else c))

deriving instance DecidableEq for Except

/-- The overwrite-on-success fold of `get_data`'s retry loop computes the most recent
successful read (or the initial binding when every try raised). -/
theorem foldl_keepLatest (l : List (Option Dataset)) (init : Option Dataset) :
    l.foldl (fun acc a => match a with | some d => some d | none => acc) init =
      ((l.filterMap id).getLast?).elim init some := by
  induction l using List.reverseRecOn with
  | nil => rfl
  | append_singleton l a ih =>
    cases a with
    | none => simpa [List.foldl_append, List.filterMap_append] using ih
    | some d => simp [List.foldl_append, List.filterMap_append, List.getLast?_concat]

/-- Function `get_data` branches on the most recent successful read and its emptiness. -/
theorem get_data_eq_lastSuccess (attempts : List (Option Dataset)) (url : String) :
    get_data attempts url =
      match lastSuccess attempts with
      | some d => if d.isEmpty then (none, some url) else (some d, none)
      | none => (none, some url) := by
  unfold get_data lastSuccess
  rw [foldl_keepLatest]
  cases (attempts.filterMap id).getLast? <;> rfl

/-- C5 counterexample: the first try succeeds with a non-empty dataset, the second
raises, the third succeeds but reads an empty dataset.  The URL is recorded in the
failed list although it is not the case that all 3 tries failed or yielded an empty
dataset - the claimed precondition for failure marking is violated. -/
theorem C5_marked_failed_counterexample :
    (get_data [some [(1, 1)], none, some []] "u").2 = some "u" ∧
    ¬ ∀ a ∈ [some [(1, 1)], none, some ([] : Dataset)], a = none ∨ a = some [] := by
  exact ⟨rfl, by decide⟩

/-- C5 amended: the retry loop runs all 3 reads without stopping at a success, keeping
only the most recent successful read; the request returns that dataset when it is
non-empty, and the URL is recorded as failed precisely when every read raised or the
most recent successful read was empty. -/
theorem C5_retry_semantics (attempts : List (Option Dataset)) (url : String) :
    (∀ d, lastSuccess attempts = some d → d ≠ [] → get_data attempts url = (some d, none)) ∧
    ((get_data attempts url).2 = some url ↔
      (lastSuccess attempts = none ∨ lastSuccess attempts = some [])) ∧
    ((get_data attempts url).1 = none ↔ (get_data attempts url).2 = some url) := by
  rw [get_data_eq_lastSuccess]
  cases hl : lastSuccess attempts with
  | none => simp
  | some d =>
    cases d with
    | nil => simp
    | cons x xs => simp

/-- C5 witness: with an exception on the first try and a non-empty read on the second,
`get_data` returns that dataset and records no failure. -/
theorem C5_retry_semantics_witness :
    get_data [none, some [(2, 3)], none] "w" = (some [(2, 3)], none) :=
  (C5_retry_semantics [none, some [(2, 3)], none] "w").1 [(2, 3)] rfl (by decide)

/-- The field check succeeds exactly when every required field is present (extra
fields are not rejected). -/
theorem checkFieldsAux_ok_iff (fieldnames req : List String) :
    checkFieldsAux fieldnames req = Except.ok () ↔ ∀ f ∈ req, f ∈ fieldnames := by
  induction req with
  | nil => simp [checkFieldsAux]
  | cons g rest ih =>
    by_cases hg : g ∈ fieldnames
    · simp [checkFieldsAux, hg, ih]
    · simp [checkFieldsAux, hg]

/-- When some required field is missing, the field check raises `ValueError` naming a
missing required field. -/
theorem checkFieldsAux_error_of_missing (fieldnames req : List String)
    (h : ∃ f ∈ req, f ∉ fieldnames) :
    ∃ f ∈ req, f ∉ fieldnames ∧ checkFieldsAux fieldnames req = Except.error f := by
  induction req with
  | nil => simp at h
  | cons g rest ih =>
    by_cases hg : g ∈ fieldnames
    · obtain ⟨f, hf, hnf⟩ := h
      rcases List.mem_cons.mp hf with rfl | hfr
      · exact absurd hg hnf
      · obtain ⟨f', h1, h2, h3⟩ := ih ⟨f, hfr, hnf⟩
        exact ⟨f', List.mem_cons_of_mem _ h1, h2, by simpa [checkFieldsAux, hg] using h3⟩
    · exact ⟨g, List.mem_cons_self _ _, hg, by simp [checkFieldsAux, hg]⟩

/-- C8 counterexample: a CSV whose header is NOT exactly the required column set - it
carries the extra column "units" - is nevertheless accepted by `check_fields_in_csv`,
refuting "must contain exactly the columns". -/
theorem C8_extra_columns_counterexample :
    check_fields_in_csv ["value", "nlcd_name", "mannings_n", "units"] = Except.ok () ∧
    "units" ∈ ["value", "nlcd_name", "mannings_n", "units"] ∧ "units" ∉ required_fields := by
  refine ⟨by decide, by decide, by decide⟩

/-- C8 amended: the CSV must contain AT LEAST the columns value, nlcd_name and
mannings_n (extra columns are accepted); when one of them is missing, validation
raises the configuration error naming it and the pipeline aborts having performed no
action but the validation - in particular before any remote request. -/
theorem C8_validation_fail_fast :
    (∀ fieldnames, check_fields_in_csv fieldnames = Except.ok () ↔
      ∀ f ∈ required_fields, f ∈ fieldnames) ∧
    (∀ fieldnames, (∃ f ∈ required_fields, f ∉ fieldnames) →
      ∃ f ∈ required_fields, f ∉ fieldnames ∧
        check_fields_in_csv fieldnames = Except.error f ∧
        ∀ extWGS extAlbers intersects w,
          get_nlcd_and_convert (some fieldnames) extWGS extAlbers intersects w =
            ([REvent.validate], Except.error (RErr.configError f))) := by
  constructor
  · intro fieldnames
    exact checkFieldsAux_ok_iff fieldnames required_fields
  · intro fieldnames h
    obtain ⟨f, h1, h2, h3⟩ := checkFieldsAux_error_of_missing fieldnames required_fields h
    refine ⟨f, h1, h2, h3, ?_⟩
    intro extWGS extAlbers intersects w
    simp [get_nlcd_and_convert, check_fields_in_csv, h3]

/-- C8 witness: a header missing `mannings_n` is rejected before any remote call. -/
theorem C8_validation_fail_fast_witness :
    ∃ f ∈ required_fields, f ∉ ["value", "nlcd_name"] ∧
      check_fields_in_csv ["value", "nlcd_name"] = Except.error f ∧
      ∀ extWGS extAlbers intersects w,
        get_nlcd_and_convert (some ["value", "nlcd_name"]) extWGS extAlbers intersects w =
          ([REvent.validate], Except.error (RErr.configError f)) :=
  C8_validation_fail_fast.2 ["value", "nlcd_name"] (by decide)

/-- C7: the Manning's n remapper is total: the output grid has the shape of the input
grid, and a cell whose land-cover code has no entry in the lookup table is mapped to
the undefined value (`dict.get` returns `None`, which survives the float cast as NaN,
modelled as `none`) rather than raising. -/
theorem C7_unmapped_code_nodata (lookup : List (ℕ × ℚ)) (grid : List (List ℕ))
    (i j : ℕ) (rowCells : List ℕ) (code : ℕ)
    (hrow : grid[i]? = some rowCells) (hcode : rowCells[j]? = some code)
    (habsent : ∀ p ∈ lookup, p.1 ≠ code) :
    (convert_to_mannings_cells lookup grid).length = grid.length ∧
    ∃ orow, (convert_to_mannings_cells lookup grid)[i]? = some orow ∧
      orow.length = rowCells.length ∧ orow[j]? = some none := by
  have hnone : dictLookup lookup code = none := by
    unfold dictLookup
    rw [List.find?_eq_none.mpr]
    · rfl
    · intro p hp
      simp only [List.mem_reverse] at hp
      simpa using habsent p hp
  refine ⟨by simp [convert_to_mannings_cells], rowCells.map (dictLookup lookup), ?_, by simp, ?_⟩
  · simp [convert_to_mannings_cells, hrow]
  · simp [hcode, hnone]

/-- C7 witness: code 99 is absent from a lookup containing only code 11, and the
corresponding output cell is the undefined value. -/
theorem C7_unmapped_code_nodata_witness :
    (convert_to_mannings_cells [(11, 3/100)] [[11, 99]]).length = 1 ∧
    ∃ orow, (convert_to_mannings_cells [(11, 3/100)] [[11, 99]])[0]? = some orow ∧
      orow.length = 2 ∧ orow[1]? = some none :=
  C7_unmapped_code_nodata [(11, 3/100)] [[11, 99]] 0 1 [11, 99] 99 rfl rfl
    (by intro p hp; simp only [List.mem_singleton] at hp; subst hp; decide)

/-- C9: for EVERY hydrologic-group label, normalization preserves the label's length,
rewrites each character position holding "/" to "-" while leaving every other
character unchanged, and leaves no "/" in the output; a label containing no "/" is
unaltered, and the spec's example "A/D" becomes "A-D". -/
theorem C9_label_normalization :
    (∀ s : String,
      (normalizeSoilClass s).data.length = s.data.length ∧
      (∀ i : ℕ, ∀ c : Char, s.data[i]? = some c →
        (normalizeSoilClass s).data[i]? = some (if c = '/' then '-' else c)) ∧
      '/' ∉ (normalizeSoilClass s).data ∧
      ((∀ c ∈ s.data, c ≠ '/') → normalizeSoilClass s = s)) ∧
    normalizeSoilClass "A/D" = "A-D" := by
  constructor
  · intro s
    have hdata : (normalizeSoilClass s).data =
        s.data.map (fun c => if c = '/' then '-' else c) := rfl
    refine ⟨?_, ?_, ?_, ?_⟩
    · rw [hdata, List.length_map]
    · intro i c hc
      rw [hdata, List.getElem?_map, hc]
      rfl
    · rw [hdata]
      intro hmem
      rw [List.mem_map] at hmem
      obtain ⟨c, _, hfc⟩ := hmem
      by_cases h : c = '/'
      · rw [if_pos h] at hfc
        exact absurd hfc (by decide)
      · rw [if_neg h] at hfc
        exact h hfc
    · intro h
      cases s with
      | mk data =>
        have hmap : data.map (fun c => if c = '/' then '-' else c) = data := by
          calc data.map (fun c => if c = '/' then '-' else c)
              = data.map id := List.map_congr_left (fun c hc => by simp [h c hc])
            _ = data := List.map_id data
        exact congrArg String.mk hmap
  · decide

/-- C9 witness: the slash in "B/D" (position 1) is rewritten to "-", and the
slash-free label "AB" is left unaltered. -/
theorem C9_label_normalization_witness :
    (normalizeSoilClass "B/D").data[1]? = some '-' ∧ normalizeSoilClass "AB" = "AB" :=
  ⟨(C9_label_normalization.1 "B/D").2.1 1 '/' (by decide),
   (C9_label_normalization.1 "AB").2.2.2 (by decide)⟩

/-- C10: the vector pipeline sizes its pool as `int(num_cores / 4)`; on a host with
fewer than 4 cores that is 0, `mp.Pool(0)` raises `ValueError`, and
`acquire_ssurgo_data` aborts after tiling but before any fetch, whatever the AOI. -/
theorem C10_small_host_pool_failure (numCores : ℕ) (h : numCores < 4)
    (aoi : ℚ × ℚ × ℚ × ℚ) (intersects : Extent → Bool) (inAOI : ℕ × ℕ → Bool)
    (w : VectorWorld) :
    numCores / 4 = 0 ∧
    acquire_ssurgo_data numCores aoi intersects inAOI w =
      ([VEvent.tilerInvoked], Except.error VErr.poolError) ∧
    ∀ e ∈ (acquire_ssurgo_data numCores aoi intersects inAOI w).1, isFetchEvent e = false := by
  have h0 : numCores / 4 = 0 := Nat.div_eq_of_lt h
  have habort : acquire_ssurgo_data numCores aoi intersects inAOI w =
      ([VEvent.tilerInvoked], Except.error VErr.poolError) := by
    unfold acquire_ssurgo_data
    rw [if_pos h0]
  refine ⟨h0, habort, ?_⟩
  rw [habort]
  intro e he
  simp only [List.mem_singleton] at he
  subst he
  rfl

/-- C10 witness: a 2-core host aborts with the pool error on a concrete AOI. -/
theorem C10_small_host_pool_failure_witness :
    acquire_ssurgo_data 2 (0, 0, 1, 1) (fun _ => true) (fun _ => true)
        ⟨fun _ => [none, none, none], fun _ => [none, none, none]⟩ =
      ([VEvent.tilerInvoked], Except.error VErr.poolError) :=
  (C10_small_host_pool_failure 2 (by decide) (0, 0, 1, 1) (fun _ => true) (fun _ => true)
    ⟨fun _ => [none, none, none], fun _ => [none, none, none]⟩).2.1

/-- Specification of the idxmax fold over a list sorted by group label: it returns an
element achieving the maximum percentage and, among those, the least group label. -/
theorem foldFirstMax_spec (t : List (String × ℚ)) (p : String × ℚ)
    (hs : (p :: t).Pairwise (fun a b : String × ℚ => a.1 ≤ b.1)) :
    ∃ r, t.foldl firstMaxStep (some p) = some r ∧ (r = p ∨ p.2 < r.2) ∧ r ∈ p :: t ∧
      ∀ q ∈ p :: t, q.2 ≤ r.2 ∧ (q.2 = r.2 → r.1 ≤ q.1) := by
  induction t generalizing p with
  | nil =>
    refine ⟨p, rfl, Or.inl rfl, List.mem_cons_self _ _, ?_⟩
    intro q hq
    rw [List.mem_singleton] at hq
    subst hq
    exact ⟨le_refl _, fun _ => le_refl _⟩
  | cons b t ih =>
    rw [List.pairwise_cons] at hs
    obtain ⟨hpall, hbt⟩ := hs
    by_cases hb : p.2 < b.2
    · have hstep : List.foldl firstMaxStep (some p) (b :: t) =
          List.foldl firstMaxStep (some b) t := by
        simp [List.foldl_cons, firstMaxStep, hb]
      obtain ⟨r, hr, hro, hmem, hq⟩ := ih b hbt
      have hbr : b.2 ≤ r.2 := (hq b (List.mem_cons_self _ _)).1
      have hpr : p.2 < r.2 := lt_of_lt_of_le hb hbr
      refine ⟨r, by rw [hstep]; exact hr, Or.inr hpr, List.mem_cons_of_mem _ hmem, ?_⟩
      intro q hq2
      rcases List.mem_cons.mp hq2 with rfl | hq3
      · exact ⟨le_of_lt hpr, fun he => absurd he (ne_of_lt hpr)⟩
      · exact hq q hq3
    · have hbp : b.2 ≤ p.2 := le_of_not_lt hb
      have hstep : List.foldl firstMaxStep (some p) (b :: t) =
          List.foldl firstMaxStep (some p) t := by
        simp [List.foldl_cons, firstMaxStep, hb]
      rw [List.pairwise_cons] at hbt
      have hpt : (p :: t).Pairwise (fun a b : String × ℚ => a.1 ≤ b.1) := by
        rw [List.pairwise_cons]
        exact ⟨fun q hq2 => hpall q (List.mem_cons_of_mem _ hq2), hbt.2⟩
      obtain ⟨r, hr, hro, hmem, hq⟩ := ih p hpt
      have hpr : p.2 ≤ r.2 := (hq p (List.mem_cons_self _ _)).1
      refine ⟨r, by rw [hstep]; exact hr, hro, ?_, ?_⟩
      · rcases List.mem_cons.mp hmem with rfl | hm2
        · exact List.mem_cons_self _ _
        · exact List.mem_cons_of_mem _ (List.mem_cons_of_mem _ hm2)
      · intro q hq2
        rcases List.mem_cons.mp hq2 with rfl | hq3
        · exact hq q (List.mem_cons_self _ _)
        · rcases List.mem_cons.mp hq3 with rfl | hq4
          · refine ⟨le_trans hbp hpr, fun he => ?_⟩
            rcases hro with rfl | hlt
            · exact hpall q (List.mem_cons_self _ _)
            · exact absurd (he ▸ hlt) (not_lt.mpr hbp)
          · exact hq q (List.mem_cons_of_mem _ hq4)

/-- pandas `idxmax` on a dataframe slice sorted by group label: the returned row has
the maximum percentage, and ties are broken towards the first - hence least - group. -/
theorem idxmaxFirst_spec (l : List (String × ℚ)) (hne : l ≠ [])
    (hs : l.Pairwise (fun a b : String × ℚ => a.1 ≤ b.1)) :
    ∃ r, idxmaxFirst l = some r ∧ r ∈ l ∧
      ∀ q ∈ l, q.2 ≤ r.2 ∧ (q.2 = r.2 → r.1 ≤ q.1) := by
  cases l with
  | nil => exact absurd rfl hne
  | cons a t =>
    obtain ⟨r, hr, _, hmem, hq⟩ := foldFirstMax_spec t a hs
    refine ⟨r, ?_, hmem, hq⟩
    show (a :: t).foldl firstMaxStep none = some r
    simpa [List.foldl_cons, firstMaxStep] using hr

/-- A key occurs in `uniqueKeys` exactly when some component row carries it. -/
theorem mem_uniqueKeys (rows : List CompRow) (g m : String) :
    (g, m) ∈ uniqueKeys rows ↔ ∃ r ∈ rows, r.hydgrp = g ∧ r.mukey = m := by
  simp only [uniqueKeys, List.mem_dedup, List.mem_map, Prod.mk.injEq]

/-- Lemma stating `groupList` as a filter-then-map over the sorted key list. -/
theorem groupList_eq (rows : List CompRow) (m : String) :
    groupList rows m =
      ((List.insertionSort keyLE (uniqueKeys rows)).filter (fun k => decide (k.2 = m))).map
        (fun k => (k.1, sumPct rows k)) := by
  unfold groupList grouped_data
  rw [List.filter_map, List.map_map]
  rfl

/-- The per-mukey dataframe slice is sorted ascending by group label. -/
theorem groupList_sorted (rows : List CompRow) (m : String) :
    (groupList rows m).Pairwise (fun a b : String × ℚ => a.1 ≤ b.1) := by
  rw [groupList_eq]
  have hs : (List.insertionSort keyLE (uniqueKeys rows)).Pairwise keyLE :=
    List.sorted_insertionSort keyLE (uniqueKeys rows)
  have hf := hs.filter (fun k => decide (k.2 = m))
  rw [List.pairwise_map]
  exact hf.imp (fun hab => hab.elim (fun h1 => le_of_lt h1) (fun h2 => le_of_eq h2.1))

/-- Membership in the per-mukey slice. -/
theorem mem_groupList (rows : List CompRow) (m g : String) (s : ℚ) :
    (g, s) ∈ groupList rows m ↔
      ((g, m) ∈ uniqueKeys rows ∧ s = sumPct rows (g, m)) := by
  rw [groupList_eq]
  simp only [List.mem_map, List.mem_filter, List.mem_insertionSort, decide_eq_true_eq,
    Prod.mk.injEq]
  constructor
  · rintro ⟨⟨k1, k2⟩, ⟨hk, hkm⟩, hg, hsv⟩
    dsimp at hkm hg hsv
    subst hkm
    subst hg
    subst hsv
    exact ⟨hk, rfl⟩
  · rintro ⟨hk, rfl⟩
    exact ⟨(g, m), ⟨hk, rfl⟩, rfl, rfl⟩

/-- C6: for every mukey present in the component table, the classifier assigns the
hydrologic group whose summed component percentage over that mukey is maximal, and a
tie between groups is broken in favor of the group that sorts first in the
groupby aggregation order. -/
theorem C6_hydrologic_group_aggregation (rows : List CompRow) (m : String)
    (h : ∃ r ∈ rows, r.mukey = m) :
    ∃ g, hydroGroupFor rows m = some g ∧
      (∃ r ∈ rows, r.hydgrp = g ∧ r.mukey = m) ∧
      ∀ g2, (∃ r ∈ rows, r.hydgrp = g2 ∧ r.mukey = m) →
        sumPct rows (g2, m) ≤ sumPct rows (g, m) ∧
        (sumPct rows (g2, m) = sumPct rows (g, m) → g ≤ g2) := by
  obtain ⟨r0, hr0, hm0⟩ := h
  have hk0 : (r0.hydgrp, m) ∈ uniqueKeys rows :=
    (mem_uniqueKeys rows r0.hydgrp m).mpr ⟨r0, hr0, rfl, hm0⟩
  have hmem0 : (r0.hydgrp, sumPct rows (r0.hydgrp, m)) ∈ groupList rows m :=
    (mem_groupList rows m r0.hydgrp _).mpr ⟨hk0, rfl⟩
  have hne : groupList rows m ≠ [] := by
    intro hE
    rw [hE] at hmem0
    exact List.not_mem_nil _ hmem0
  obtain ⟨p, hfold, hpmem, hspec⟩ :=
    idxmaxFirst_spec (groupList rows m) hne (groupList_sorted rows m)
  obtain ⟨g, s⟩ := p
  obtain ⟨hkey, hsv⟩ := (mem_groupList rows m g s).mp hpmem
  refine ⟨g, ?_, (mem_uniqueKeys rows g m).mp hkey, ?_⟩
  · unfold hydroGroupFor
    rw [hfold]
    rfl
  · intro g2 hg2
    have hk2 : (g2, m) ∈ uniqueKeys rows := (mem_uniqueKeys rows g2 m).mpr hg2
    have hin : (g2, sumPct rows (g2, m)) ∈ groupList rows m :=
      (mem_groupList rows m g2 _).mpr ⟨hk2, rfl⟩
    have hq := hspec _ hin
    dsimp at hq
    rw [hsv] at hq
    exact ⟨hq.1, fun he => hq.2 he⟩

/-- C6 witness: the spec's synthetic rows (A: 30, B: 45, C: 25 for one mukey). -/
theorem C6_hydrologic_group_aggregation_witness :
    ∃ g, hydroGroupFor
        [⟨"100", 30, "A"⟩, ⟨"100", 45, "B"⟩, ⟨"100", 25, "C"⟩] "100" = some g ∧
      (∃ r ∈ [CompRow.mk "100" 30 "A", CompRow.mk "100" 45 "B", CompRow.mk "100" 25 "C"],
        r.hydgrp = g ∧ r.mukey = "100") ∧
      ∀ g2, (∃ r ∈ [CompRow.mk "100" 30 "A", CompRow.mk "100" 45 "B", CompRow.mk "100" 25 "C"],
          r.hydgrp = g2 ∧ r.mukey = "100") →
        sumPct [⟨"100", 30, "A"⟩, ⟨"100", 45, "B"⟩, ⟨"100", 25, "C"⟩] (g2, "100") ≤
          sumPct [⟨"100", 30, "A"⟩, ⟨"100", 45, "B"⟩, ⟨"100", 25, "C"⟩] (g, "100") ∧
        (sumPct [⟨"100", 30, "A"⟩, ⟨"100", 45, "B"⟩, ⟨"100", 25, "C"⟩] (g2, "100") =
            sumPct [⟨"100", 30, "A"⟩, ⟨"100", 45, "B"⟩, ⟨"100", 25, "C"⟩] (g, "100") →
          g ≤ g2) :=
  C6_hydrologic_group_aggregation [⟨"100", 30, "A"⟩, ⟨"100", 45, "B"⟩, ⟨"100", 25, "C"⟩]
    "100" ⟨CompRow.mk "100" 30 "A", List.mem_cons_self _ _, rfl⟩

/-- Evaluate `Int.ceil.toNat` from rational bounds. -/
theorem ceil_toNat_eq (q : ℚ) (n : ℕ) (h1 : (n : ℚ) - 1 < q) (h2 : q ≤ (n : ℚ)) :
    (⌈q⌉).toNat = n := by
  have hz : ⌈q⌉ = (n : ℤ) := by
    rw [Int.ceil_eq_iff]
    constructor
    · push_cast
      exact h1
    · push_cast
      exact h2
  rw [hz]
  exact Int.toNat_natCast n

/-- Evaluate `num_rows` from rational bounds on the quotient. -/
theorem num_rows_eq (size : ℚ) (ext : Extent) (n : ℕ)
    (h1 : (n : ℚ) - 1 < (ext.max_y - ext.min_y) / size)
    (h2 : (ext.max_y - ext.min_y) / size ≤ (n : ℚ)) :
    num_rows size ext = n := ceil_toNat_eq _ n h1 h2

/-- Evaluate `num_cols` from rational bounds on the quotient. -/
theorem num_cols_eq (size : ℚ) (ext : Extent) (n : ℕ)
    (h1 : (n : ℚ) - 1 < (ext.max_x - ext.min_x) / size)
    (h2 : (ext.max_x - ext.min_x) / size ≤ (n : ℚ)) :
    num_cols size ext = n := ceil_toNat_eq _ n h1 h2

/-- A nondegenerate extent and positive tile size give at least one column. -/
theorem num_cols_pos (size : ℚ) (ext : Extent) (hx : ext.min_x < ext.max_x) (hs : 0 < size) :
    0 < num_cols size ext := by
  unfold num_cols
  have h : 0 < ⌈(ext.max_x - ext.min_x) / size⌉ :=
    Int.ceil_pos.mpr (div_pos (by linarith) hs)
  set z := ⌈(ext.max_x - ext.min_x) / size⌉
  omega

/-- A nondegenerate extent and positive tile size give at least one row. -/
theorem num_rows_pos (size : ℚ) (ext : Extent) (hy : ext.min_y < ext.max_y) (hs : 0 < size) :
    0 < num_rows size ext := by
  unfold num_rows
  have h : 0 < ⌈(ext.max_y - ext.min_y) / size⌉ :=
    Int.ceil_pos.mpr (div_pos (by linarith) hs)
  set z := ⌈(ext.max_y - ext.min_y) / size⌉
  omega

/-- Taking `n` steps of the exact quotient span `(hi - lo) / n` reach `hi` exactly. -/
theorem stepDiv_last (lo hi : ℚ) (n : ℕ) (hn : 0 < n) :
    lo + (n : ℚ) * ((hi - lo) / (n : ℚ)) = hi := by
  have hne : ((n : ℕ) : ℚ) ≠ 0 := Nat.cast_ne_zero.mpr hn.ne'
  field_simp

/-- Exact interval cover: when `n` uniform positive steps from `lo` exist, every point
of `[lo, lo + n*step]` lies in the `k`-th step interval for some `k < n`. -/
theorem partition_cover (lo step : ℚ) (n : ℕ) (hn : 0 < n) (hstep : 0 < step) (t : ℚ)
    (hlo : lo ≤ t) (hhi : t ≤ lo + (n : ℚ) * step) :
    ∃ k < n, lo + (k : ℚ) * step ≤ t ∧ t ≤ lo + ((k : ℚ) + 1) * step := by
  by_cases hend : lo + ((n : ℚ) - 1) * step ≤ t
  · refine ⟨n - 1, Nat.sub_lt hn one_pos, ?_, ?_⟩
    · rw [Nat.cast_pred hn]
      exact hend
    · rw [Nat.cast_pred hn]
      have hcast : ((n : ℚ) - 1 + 1) = (n : ℚ) := by ring
      rw [hcast]
      exact hhi
  · push_neg at hend
    have hu0 : 0 ≤ (t - lo) / step := div_nonneg (by linarith) hstep.le
    have hfl0 : (0 : ℤ) ≤ ⌊(t - lo) / step⌋ := Int.floor_nonneg.mpr hu0
    have hk : ((⌊(t - lo) / step⌋.toNat : ℕ) : ℚ) = ((⌊(t - lo) / step⌋ : ℤ) : ℚ) := by
      exact_mod_cast Int.toNat_of_nonneg hfl0
    have h1 : ((⌊(t - lo) / step⌋.toNat : ℕ) : ℚ) ≤ (t - lo) / step := by
      rw [hk]
      exact Int.floor_le _
    have h2 : (t - lo) / step < ((⌊(t - lo) / step⌋.toNat : ℕ) : ℚ) + 1 := by
      rw [hk]
      exact Int.lt_floor_add_one _
    have hexp : ((n : ℚ) - 1) * step = (n : ℚ) * step - step := by ring
    have hun : (t - lo) / step < (n : ℚ) := by
      rw [div_lt_iff₀ hstep]
      rw [hexp] at hend
      linarith
    have hkn : ⌊(t - lo) / step⌋.toNat < n := by
      have hz : ⌊(t - lo) / step⌋ < (n : ℤ) := Int.floor_lt.mpr (by push_cast; exact hun)
      omega
    refine ⟨⌊(t - lo) / step⌋.toNat, hkn, ?_, ?_⟩
    · have hm := (le_div_iff₀ hstep).mp h1
      linarith
    · have hm := (div_lt_iff₀ hstep).mp h2
      linarith

/-- C4 counterexample: for the extent `(0, 1/2) x (0, 0.493827124)` and the
curve-number tile size `0.25`, the code's `step_y` (rounded to 8 decimals) differs
from the exact span divided by the row count, and the last pre-margin row boundary
`min_y + num_rows * step_y` misses `max_y`: the pre-margin rectangles do NOT exactly
partition the extent, refuting the claim as stated. -/
theorem C4_step_rounding_counterexample :
    num_rows (1/4) ⟨0, 1/2, 0, 493827124/1000000000⟩ = 2 ∧
    step_y (1/4) ⟨0, 1/2, 0, 493827124/1000000000⟩ ≠
      ((493827124/1000000000 : ℚ) - 0) /
        ((num_rows (1/4) ⟨0, 1/2, 0, 493827124/1000000000⟩ : ℕ) : ℚ) ∧
    rowLow (1/4) ⟨0, 1/2, 0, 493827124/1000000000⟩
        (num_rows (1/4) ⟨0, 1/2, 0, 493827124/1000000000⟩) ≠
      (493827124/1000000000 : ℚ) := by
  have hnr : num_rows (1/4) ⟨0, 1/2, 0, 493827124/1000000000⟩ = 2 :=
    num_rows_eq _ _ 2 (by norm_num) (by norm_num)
  have hpy : pyRound (123456781/5 : ℚ) = 24691356 := by
    have hf : ⌊(123456781/5 : ℚ)⌋ = 24691356 := by norm_num
    simp only [pyRound, hf]
    rw [if_pos (by norm_num)]
  have hstep : step_y (1/4) ⟨0, 1/2, 0, 493827124/1000000000⟩ = 6172839/25000000 := by
    unfold step_y
    rw [hnr]
    unfold round8
    have harg : (((⟨0, 1/2, 0, 493827124/1000000000⟩ : Extent).max_y -
        (⟨0, 1/2, 0, 493827124/1000000000⟩ : Extent).min_y) / ((2 : ℕ) : ℚ)) * 10^8 =
        (123456781/5 : ℚ) := by norm_num
    rw [harg, hpy]
    norm_num
  refine ⟨hnr, ?_, ?_⟩
  · rw [hstep, hnr]
    norm_num
  · rw [rowLow, hstep, hnr]
    norm_num

/-- C4 amended: for every nondegenerate extent and positive tile size, the row and
column counts are the ceiling divisions of the spans by the tile size; the x step is
the exact width divided by the column count, so the pre-margin column intervals
partition `[min_x, max_x]` exactly with no gaps; the y step is that quotient ROUNDED
to 8 decimal places, so the pre-margin row intervals partition `[min_y, max_y]`
exactly only when the rounding is lossless (`step_y` equals the exact quotient);
and the overlap margin is purely additive - each emitted tile bound is the pre-margin
partition bound with the margin added (then rounded), the margin taking no part in
the count and step arithmetic. -/
theorem C4_tiler_partition (ext : Extent) (size margin : ℚ)
    (hx : ext.min_x < ext.max_x) (hy : ext.min_y < ext.max_y) (hsize : 0 < size) :
    (num_rows size ext = (⌈(ext.max_y - ext.min_y) / size⌉).toNat ∧
     num_cols size ext = (⌈(ext.max_x - ext.min_x) / size⌉).toNat) ∧
    (step_x size ext = (ext.max_x - ext.min_x) / (num_cols size ext : ℚ) ∧
     colLow size ext 0 = ext.min_x ∧
     colLow size ext (num_cols size ext) = ext.max_x ∧
     ∀ t : ℚ, ext.min_x ≤ t → t ≤ ext.max_x →
       ∃ col < num_cols size ext, colLow size ext col ≤ t ∧ t ≤ colLow size ext (col + 1)) ∧
    (step_y size ext = (ext.max_y - ext.min_y) / (num_rows size ext : ℚ) →
      (rowLow size ext 0 = ext.min_y ∧
       rowLow size ext (num_rows size ext) = ext.max_y ∧
       ∀ t : ℚ, ext.min_y ≤ t → t ≤ ext.max_y →
         ∃ row < num_rows size ext, rowLow size ext row ≤ t ∧ t ≤ rowLow size ext (row + 1))) ∧
    (∀ row col : ℕ, subextentAt size margin ext row col =
      { min_x := round8 (colLow size ext col - margin)
        max_x := round8 (colLow size ext (col + 1) + margin)
        min_y := round8 (rowLow size ext row - margin)
        max_y := round8 (rowLow size ext (row + 1) + margin) }) := by
  have hnc : 0 < num_cols size ext := num_cols_pos size ext hx hsize
  have hnr : 0 < num_rows size ext := num_rows_pos size ext hy hsize
  have hstepx : 0 < step_x size ext := by
    unfold step_x
    exact div_pos (by linarith) (by exact_mod_cast hnc)
  have hcolLast : colLow size ext (num_cols size ext) = ext.max_x := by
    unfold colLow step_x
    exact stepDiv_last ext.min_x ext.max_x (num_cols size ext) hnc
  refine ⟨⟨rfl, rfl⟩, ⟨rfl, by simp [colLow], hcolLast, ?_⟩, ?_, fun row col => rfl⟩
  · intro t ht1 ht2
    have ht2v : t ≤ ext.min_x + (num_cols size ext : ℚ) * step_x size ext := by
      have : ext.min_x + (num_cols size ext : ℚ) * step_x size ext = ext.max_x := hcolLast
      rw [this]
      exact ht2
    obtain ⟨k, hk, hk1, hk2⟩ :=
      partition_cover ext.min_x (step_x size ext) (num_cols size ext) hnc hstepx t ht1 ht2v
    refine ⟨k, hk, hk1, ?_⟩
    unfold colLow
    push_cast
    exact hk2
  · intro hexact
    have hrowLast : rowLow size ext (num_rows size ext) = ext.max_y := by
      unfold rowLow
      rw [hexact]
      exact stepDiv_last ext.min_y ext.max_y (num_rows size ext) hnr
    have hstepy : 0 < step_y size ext := by
      rw [hexact]
      exact div_pos (by linarith) (by exact_mod_cast hnr)
    refine ⟨by simp [rowLow], hrowLast, ?_⟩
    intro t ht1 ht2
    have ht2v : t ≤ ext.min_y + (num_rows size ext : ℚ) * step_y size ext := by
      have : ext.min_y + (num_rows size ext : ℚ) * step_y size ext = ext.max_y := hrowLast
      rw [this]
      exact ht2
    obtain ⟨k, hk, hk1, hk2⟩ :=
      partition_cover ext.min_y (step_y size ext) (num_rows size ext) hnr hstepy t ht1 ht2v
    refine ⟨k, hk, hk1, ?_⟩
    unfold rowLow
    push_cast
    exact hk2

/-- C4 witness: for the unit-square extent with the curve-number tile size, the last
column boundary is exactly `max_x` and the point `1/3` is covered by some column. -/
theorem C4_tiler_partition_witness :
    colLow (1/4) ⟨0, 1, 0, 1⟩ (num_cols (1/4) ⟨0, 1, 0, 1⟩) = (⟨0, 1, 0, 1⟩ : Extent).max_x ∧
    ∃ col < num_cols (1/4) ⟨0, 1, 0, 1⟩,
      colLow (1/4) ⟨0, 1, 0, 1⟩ col ≤ 1/3 ∧ (1/3 : ℚ) ≤ colLow (1/4) ⟨0, 1, 0, 1⟩ (col + 1) :=
  ⟨(C4_tiler_partition ⟨0, 1, 0, 1⟩ (1/4) (15/10000) (by norm_num) (by norm_num)
      (by norm_num)).2.1.2.2.1,
   (C4_tiler_partition ⟨0, 1, 0, 1⟩ (1/4) (15/10000) (by norm_num) (by norm_num)
      (by norm_num)).2.1.2.2.2 (1/3) (by norm_num) (by norm_num)⟩

/-- A filterMap that always produces a value is a map. -/
theorem filterMap_some_eq_map {α β : Type} (f : α → β) (l : List α) :
    l.filterMap (fun a => some (f a)) = l.map f := by
  induction l with
  | nil => rfl
  | cons a t ih => simp [List.filterMap_cons, ih]

/-- A filterMap that never produces a value is empty. -/
theorem filterMap_const_none {α β : Type} (l : List α) :
    (l.filterMap fun _ => (none : Option β)) = [] := by
  induction l with
  | nil => rfl
  | cons a t ih => simp [List.filterMap_cons, ih]

/-- A filterMap that always produces the same value is a constant map. -/
theorem filterMap_const_some {α β : Type} (b : β) (l : List α) :
    (l.filterMap fun _ => some b) = l.map (fun _ => b) := by
  induction l with
  | nil => rfl
  | cons a t ih => simp [List.filterMap_cons, ih]

/-- With an all-true intersection oracle no candidate tile is pruned. -/
theorem split_extent_true_eq (size margin : ℚ) (ext : Extent) :
    split_extent size margin ext (fun _ => true) =
      (List.range (num_rows size ext)).flatMap (fun row =>
        (List.range (num_cols size ext)).map (subextentAt size margin ext row)) := by
  unfold split_extent
  congr 1
  funext row
  rw [← filterMap_some_eq_map]
  rfl

/-- With an all-true intersection oracle the tiler emits `num_rows * num_cols` tiles. -/
theorem length_split_extent_true (size margin : ℚ) (ext : Extent) :
    (split_extent size margin ext (fun _ => true)).length =
      num_rows size ext * num_cols size ext := by
  rw [split_extent_true_eq, List.length_flatMap]
  simp only [Function.comp_def, List.length_map, List.length_range, List.map_const',
    List.sum_replicate, smul_eq_mul]

/-- The vector pipeline's trace, once the pool was constructed: the tiler invocation,
one fetch per URL, and the retry fetches when something failed. -/
theorem acquire_trace (numCores : ℕ) (aoi : ℚ × ℚ × ℚ × ℚ) (intersects : Extent → Bool)
    (inAOI : ℕ × ℕ → Bool) (w : VectorWorld) (h0 : ¬ numCores / 4 = 0) :
    (acquire_ssurgo_data numCores aoi intersects inAOI w).1 =
      VEvent.tilerInvoked :: (ssurgoUrls aoi intersects).map VEvent.fetch ++
        (if (failedUrls w (ssurgoUrls aoi intersects)).isEmpty then []
         else (failedUrls w (ssurgoUrls aoi intersects)).map VEvent.retryFetch) := by
  simp only [acquire_ssurgo_data]
  rw [if_neg h0]
  split
  · rfl
  · rfl

/-- The vector pipeline's result, once the pool was constructed: the fatal no-data
error when every retrieved dataset is empty, otherwise the deduplicated clipped
concatenation of the fetched datasets. -/
theorem acquire_result (numCores : ℕ) (aoi : ℚ × ℚ × ℚ × ℚ) (intersects : Extent → Bool)
    (inAOI : ℕ × ℕ → Bool) (w : VectorWorld) (h0 : ¬ numCores / 4 = 0) :
    (acquire_ssurgo_data numCores aoi intersects inAOI w).2 =
      if (fetchedDatasets w (ssurgoUrls aoi intersects)).all (fun d => d.isEmpty) then
        Except.error VErr.noData
      else
        Except.ok ((drop_duplicates
          (fetchedDatasets w (ssurgoUrls aoi intersects)).flatten).filter inAOI) := by
  simp only [acquire_ssurgo_data]
  rw [if_neg h0]
  split
  · rfl
  · rfl

/-- Under a network in which every read raises, no dataset is collected in either
pass. -/
theorem fetchedDatasets_allFail (urls : List String) :
    fetchedDatasets ⟨fun _ => [none, none, none], fun _ => [none, none, none]⟩ urls = [] := by
  unfold fetchedDatasets
  simp only [List.filterMap_map]
  have hcomp1 : ((fun r : Option Dataset × Option String => r.1) ∘
      fun u => get_data [none, none, none] u) = fun _ => (none : Option Dataset) := rfl
  have hcomp2 : ((fun r : Option Dataset × Option String => r.2) ∘
      fun u => get_data [none, none, none] u) = fun u => some u := rfl
  rw [hcomp1, hcomp2, filterMap_const_none]
  simp [filterMap_const_none]

/-- Under a network in which every read returns the non-empty dataset `d`, every URL
succeeds in the first pass and nothing is retried. -/
theorem fetchedDatasets_allGood (d : Dataset) (hd : d.isEmpty = false) (urls : List String) :
    fetchedDatasets ⟨fun _ => [some d, some d, some d], fun _ => [some d, some d, some d]⟩
        urls = urls.map (fun _ => d) := by
  unfold fetchedDatasets
  simp only [List.filterMap_map]
  have hcomp1 : ((fun r : Option Dataset × Option String => r.1) ∘
      fun u => get_data [some d, some d, some d] u) = fun _ => some d := by
    funext u
    simp [get_data, hd]
  have hcomp2 : ((fun r : Option Dataset × Option String => r.2) ∘
      fun u => get_data [some d, some d, some d] u) = fun _ => (none : Option String) := by
    funext u
    simp [get_data, hd]
  rw [hcomp1, hcomp2, filterMap_const_none, filterMap_const_some]
  simp

/-- As `fetchedDatasets_allGood`, but for the failed-URL bookkeeping. -/
theorem failedUrls_allGood (d : Dataset) (hd : d.isEmpty = false) (urls : List String) :
    failedUrls ⟨fun _ => [some d, some d, some d], fun _ => [some d, some d, some d]⟩
        urls = [] := by
  unfold failedUrls
  rw [List.filterMap_map]
  have hcomp : ((fun r : Option Dataset × Option String => r.2) ∘
      fun u => get_data [some d, some d, some d] u) = fun _ => (none : Option String) := by
    funext u
    simp [get_data, hd]
  rw [hcomp]
  exact filterMap_const_none urls

/-- C2: when every tile request fails even after the retry pass, the vector pipeline
raises the fatal no-data error and emits no output (first conjunct, for every AOI
under an all-failing network).  The raster pipeline, however, hard-fails even when
only SOME tiles fail: in a 2-tile run whose second download fails,
`convert_to_mannings` is invoked on the never-written tile file before the
`result == "fail"` check, so `rasterio.open` raises and the run aborts instead of
collecting the failure as a warning (second conjunct). -/
theorem C2_retry_exhaustion_divergence :
    (∀ (aoi : ℚ × ℚ × ℚ × ℚ) (intersects : Extent → Bool) (inAOI : ℕ × ℕ → Bool),
      (acquire_ssurgo_data 8 aoi intersects inAOI
        ⟨fun _ => [none, none, none], fun _ => [none, none, none]⟩).2 =
        Except.error VErr.noData) ∧
    get_nlcd_and_convert none ⟨0, 4, 0, 4⟩ ⟨0, 200000, 0, 50000⟩ (fun _ => true)
        ⟨fun i => decide (i = 0), fun _ => false⟩ =
      ([REvent.tilerInvoked, REvent.fetchTile 0, REvent.fetchTile 1],
        Except.error (RErr.rasterReadError 1)) := by
  constructor
  · intro aoi intersects inAOI
    rw [acquire_result 8 aoi intersects inAOI _ (by norm_num)]
    rw [fetchedDatasets_allFail]
    rfl
  · have hlen : (split_extent_nlcd ⟨0, 200000, 0, 50000⟩ (fun _ => true)).length = 2 := by
      unfold split_extent_nlcd
      rw [length_split_extent_true]
      rw [num_rows_eq 100000 _ 1 (by norm_num) (by norm_num),
        num_cols_eq 100000 _ 2 (by norm_num) (by norm_num)]
    simp only [get_nlcd_and_convert, rasterBody]
    rw [if_neg (by norm_num)]
    rw [hlen]
    rfl

/-- The 5% buffering of a unit-square AOI. -/
theorem bufferExtent_unit : bufferExtent 0 0 1 1 = ⟨-1/20, 421/400, -1/20, 421/400⟩ := by
  have h1 : |(1:ℚ) - 0| = 1 := by norm_num
  simp only [bufferExtent, h1]
  have h2 : |(1:ℚ) - (0 - 1 * (5/100))| = 21/20 := by
    rw [abs_of_nonneg (by norm_num)]
    norm_num
  rw [h2]
  simp only [Extent.mk.injEq]
  norm_num

/-- C1: the raster pipeline does bypass the tiler for a small area - for a 1-square-
degree AOI the whole extent is fetched as a single request, for any network, with no
tiler invocation in the trace (first conjunct).  The vector pipeline does NOT: its
module has no small-area branch at all, so for an AOI whose buffered bounding box has
area about 1.22 <= 9 square degrees it still invokes the tiler (for every network)
and issues 25 tile requests rather than one (remaining conjuncts). -/
theorem C1_small_area_bypass_divergence :
    (∀ w : RasterWorld,
      (get_nlcd_and_convert none ⟨0, 1, 0, 1⟩ ⟨0, 1, 0, 1⟩ (fun _ => true) w).1 =
        [REvent.fetchWhole]) ∧
    ((bufferExtent 0 0 1 1).max_x - (bufferExtent 0 0 1 1).min_x) *
        ((bufferExtent 0 0 1 1).max_y - (bufferExtent 0 0 1 1).min_y) ≤ 9 ∧
    (split_extent_cn (bufferExtent 0 0 1 1) (fun _ => true)).length = 25 ∧
    (∀ w : VectorWorld,
      VEvent.tilerInvoked ∈
        (acquire_ssurgo_data 8 (0, 0, 1, 1) (fun _ => true) (fun _ => true) w).1) ∧
    ((acquire_ssurgo_data 8 (0, 0, 1, 1) (fun _ => true) (fun _ => true)
        ⟨fun _ => [some [(0, 0)], some [(0, 0)], some [(0, 0)]],
         fun _ => [some [(0, 0)], some [(0, 0)], some [(0, 0)]]⟩).1.filter
      isFetchEvent).length = 25 := by
  have hlen : (split_extent_cn (bufferExtent 0 0 1 1) (fun _ => true)).length = 25 := by
    rw [bufferExtent_unit]
    unfold split_extent_cn
    rw [length_split_extent_true]
    rw [num_rows_eq (1/4) _ 5 (by norm_num) (by norm_num),
      num_cols_eq (1/4) _ 5 (by norm_num) (by norm_num)]
  have hurls : (ssurgoUrls (0, 0, 1, 1) (fun _ => true)).length = 25 := by
    unfold ssurgoUrls
    rw [List.length_map]
    exact hlen
  refine ⟨?_, ?_, hlen, ?_, ?_⟩
  · intro w
    simp only [get_nlcd_and_convert, rasterBody]
    rw [if_pos (by norm_num)]
    by_cases h : w.pass1 0 = true
    · rw [if_pos h]
      rfl
    · rw [if_neg h]
      rfl
  · rw [bufferExtent_unit]
    norm_num
  · intro w
    rw [acquire_trace 8 (0, 0, 1, 1) (fun _ => true) (fun _ => true) w (by norm_num)]
    exact List.mem_cons_self _ _
  · rw [acquire_trace 8 (0, 0, 1, 1) (fun _ => true) (fun _ => true) _ (by norm_num)]
    rw [failedUrls_allGood [(0, 0)] rfl]
    simp only [List.isEmpty_nil, if_true, List.append_nil]
    rw [List.filter_cons_of_neg (by decide)]
    rw [List.filter_map]
    have hcomp : (isFetchEvent ∘ VEvent.fetch) = fun _ => true := rfl
    rw [hcomp, List.filter_true, List.length_map]
    exact hurls

/-- The 5% buffering of a 0.1-degree-square AOI. -/
theorem bufferExtent_small :
    bufferExtent 0 0 (1/10) (1/10) = ⟨-1/200, 421/4000, -1/200, 421/4000⟩ := by
  have h1 : |(1/10 : ℚ) - 0| = 1/10 := by norm_num
  simp only [bufferExtent, h1]
  have h2 : |(1/10 : ℚ) - (0 - 1/10 * (5/100))| = 21/200 := by
    rw [abs_of_nonneg (by norm_num)]
    norm_num
  rw [h2]
  simp only [Extent.mk.injEq]
  norm_num

/-- C3: when at least one vector tile's data survives the two passes, the vector
pipeline completes without raising and its output is exactly the deduplicated,
AOI-clipped concatenation of the successfully fetched datasets - nothing beyond the
failed tiles is lost (first conjunct).  The raster pipeline, however, does NOT
tolerate a partial failure: in a 3-tile run whose second download fails, the pipeline
crashes inside `convert_to_mannings` (opening the never-written tile file) instead of
completing with the two successful tiles (second conjunct). -/
theorem C3_some_tiles_fail_divergence (aoi : ℚ × ℚ × ℚ × ℚ) (intersects : Extent → Bool)
    (inAOI : ℕ × ℕ → Bool) (w : VectorWorld)
    (hsome : (fetchedDatasets w (ssurgoUrls aoi intersects)).all (fun d => d.isEmpty) =
      false) :
    ((acquire_ssurgo_data 8 aoi intersects inAOI w).2 =
      Except.ok ((drop_duplicates
        (fetchedDatasets w (ssurgoUrls aoi intersects)).flatten).filter inAOI)) ∧
    get_nlcd_and_convert none ⟨0, 4, 0, 4⟩ ⟨0, 300000, 0, 50000⟩ (fun _ => true)
        ⟨fun i => decide (¬ i = 1), fun _ => false⟩ =
      ([REvent.tilerInvoked, REvent.fetchTile 0, REvent.fetchTile 1],
        Except.error (RErr.rasterReadError 1)) := by
  constructor
  · rw [acquire_result 8 aoi intersects inAOI w (by norm_num)]
    rw [hsome]
    rfl
  · have hlen : (split_extent_nlcd ⟨0, 300000, 0, 50000⟩ (fun _ => true)).length = 3 := by
      unfold split_extent_nlcd
      rw [length_split_extent_true]
      rw [num_rows_eq 100000 _ 1 (by norm_num) (by norm_num),
        num_cols_eq 100000 _ 3 (by norm_num) (by norm_num)]
    simp only [get_nlcd_and_convert, rasterBody]
    rw [if_neg (by norm_num)]
    rw [hlen]
    rfl

/-- C3 witness: a 1-tile AOI under an all-succeeding network discharges the
at-least-one-dataset hypothesis. -/
theorem C3_some_tiles_fail_divergence_witness :
    ((fetchedDatasets
        ⟨fun _ => [some [(7, 1)], some [(7, 1)], some [(7, 1)]],
         fun _ => [some [(7, 1)], some [(7, 1)], some [(7, 1)]]⟩
        (ssurgoUrls (0, 0, 1/10, 1/10) (fun _ => true))).all (fun d => d.isEmpty) =
      false) ∧
    ((acquire_ssurgo_data 8 (0, 0, 1/10, 1/10) (fun _ => true) (fun _ => true)
        ⟨fun _ => [some [(7, 1)], some [(7, 1)], some [(7, 1)]],
         fun _ => [some [(7, 1)], some [(7, 1)], some [(7, 1)]]⟩).2 =
      Except.ok ((drop_duplicates
        (fetchedDatasets
          ⟨fun _ => [some [(7, 1)], some [(7, 1)], some [(7, 1)]],
           fun _ => [some [(7, 1)], some [(7, 1)], some [(7, 1)]]⟩
          (ssurgoUrls (0, 0, 1/10, 1/10) (fun _ => true))).flatten).filter
        (fun _ => true))) ∧
    get_nlcd_and_convert none ⟨0, 4, 0, 4⟩ ⟨0, 300000, 0, 50000⟩ (fun _ => true)
        ⟨fun i => decide (¬ i = 1), fun _ => false⟩ =
      ([REvent.tilerInvoked, REvent.fetchTile 0, REvent.fetchTile 1],
        Except.error (RErr.rasterReadError 1)) := by
  have hlen1 : (ssurgoUrls (0, 0, 1/10, 1/10) (fun _ => true)).length = 1 := by
    unfold ssurgoUrls
    rw [List.length_map]
    dsimp only
    rw [bufferExtent_small]
    unfold split_extent_cn
    rw [length_split_extent_true]
    rw [num_rows_eq (1/4) _ 1 (by norm_num) (by norm_num),
      num_cols_eq (1/4) _ 1 (by norm_num) (by norm_num)]
  have hsome : (fetchedDatasets
      ⟨fun _ => [some [(7, 1)], some [(7, 1)], some [(7, 1)]],
       fun _ => [some [(7, 1)], some [(7, 1)], some [(7, 1)]]⟩
      (ssurgoUrls (0, 0, 1/10, 1/10) (fun _ => true))).all (fun d => d.isEmpty) =
      false := by
    rw [fetchedDatasets_allGood [(7, 1)] rfl]
    obtain ⟨a, t, hat⟩ : ∃ a t, ssurgoUrls (0, 0, 1/10, 1/10) (fun _ => true) = a :: t := by
      cases h : ssurgoUrls (0, 0, 1/10, 1/10) (fun _ => true) with
      | nil =>
        rw [h] at hlen1
        simp at hlen1
      | cons a t => exact ⟨a, t, rfl⟩
    rw [hat]
    simp
  exact ⟨hsome, C3_some_tiles_fail_divergence (0, 0, 1/10, 1/10) (fun _ => true)
    (fun _ => true)
    ⟨fun _ => [some [(7, 1)], some [(7, 1)], some [(7, 1)]],
     fun _ => [some [(7, 1)], some [(7, 1)], some [(7, 1)]]⟩ hsome⟩
